import Mathlib

/-!
Verification development for the Sarthi safety-scoring and route-evaluation
platform (Mini-Project).  The front-end JavaScript under `frontend/js/` and
`/js/` is embedded shallowly below; the back-end scoring core (Feature
Extractor, Spatial Aggregator, Predictive Scorer, Heatmap Query Service,
Route Evaluator) is not part of the inspected sources, so those components
are modelled from the design document's contracts, each such definition
carrying a doc comment starting with `Modelled from the spec:`.

Numbers are modelled as exact rationals (`ℚ`); a JavaScript number that may
be `NaN` is modelled as `Option ℚ` with `none` standing for `NaN`.
-/

namespace Sarthi

/-! ## Time bands (`getCurrentTimeBand`, /js/route.js) -/

/-- The five time-of-day bands of the data model. -/
inductive TimeBand where
  | midnight
  | morning
  | afternoon
  | evening
  | night
deriving DecidableEq, Repr

/-- Embedding of `getCurrentTimeBand` from `/js/route.js`: the chain of
`if (h >= 0 && h <= 3) ... else 'night'` tests on the local hour. -/
def getCurrentTimeBand (h : ℕ) : TimeBand :=
  if 0 ≤ h ∧ h ≤ 3 then .midnight
  else if 4 ≤ h ∧ h ≤ 11 then .morning
  else if 12 ≤ h ∧ h ≤ 16 then .afternoon
  else if 17 ≤ h ∧ h ≤ 20 then .evening
  else .night

/-! ## Audit form validation (`validatePayload`, `submitAudit` in help_others.js) -/

/-- JavaScript truthiness of a numeric value (`none` models `NaN`):
`!x` holds exactly for `0` and `NaN`. -/
def numTruthy : Option ℚ → Bool
  | none => false
  | some q => decide (q ≠ 0)

/-- The possible results of `validatePayload`: `ok` models the `null` return,
the three error constructors model the three error strings. -/
inductive ValidateResult where
  | ok
  | errUnsetLocation
  | errInvalidCoords
  | errOutOfRange
deriving DecidableEq, Repr

/-- Embedding of `validatePayload` from `help_others.js`:
first the falsiness presence check on `payload.lat` / `payload.lng`,
then the `Number.isNaN` check, then the WGS84 range check. -/
def validatePayload (lat lng : Option ℚ) : ValidateResult :=
  if numTruthy lat = false ∨ numTruthy lng = false then .errUnsetLocation
  else
    match lat, lng with
    | some la, some ln =>
        if la < -90 ∨ 90 < la ∨ ln < -180 ∨ 180 < ln then .errOutOfRange
        else .ok
    | _, _ => .errInvalidCoords

/-- Categorical crowd-density values of an Audit. -/
inductive CrowdDensity where
  | none
  | low
  | medium
  | high
deriving DecidableEq, Repr

/-- Categorical crime-observed values of an Audit. -/
inductive CrimeObserved where
  | none
  | minor
  | moderate
  | severe
deriving DecidableEq, Repr

/-- The audit payload assembled by `submitAudit` in help_others.js.
`lat`/`lng` are JavaScript numbers (`none` = `NaN`); `hour` is the local
hour derived from `timestamp`. -/
structure AuditPayload where
  lat : Option ℚ
  lng : Option ℚ
  lighting : ℕ
  visibility : ℕ
  cctv : Bool
  security : Bool
  crowd : CrowdDensity
  crime : CrimeObserved
  hour : ℕ
deriving DecidableEq, Repr

/-! ## Feature extraction (back end) -/

/-- Modelled from the spec: the fixed, versioned encoding table mapping
`crowd_density` to `{none:0, low:0.33, medium:0.66, high:1.0}`. -/
def crowdVal : CrowdDensity → ℚ
  | .none => 0
  | .low => 33 / 100
  | .medium => 66 / 100
  | .high => 1

/-- Modelled from the spec: the categorical encoding of `crime_observed`,
`{none:0, minor:0.33, moderate:0.66, severe:1.0}`; larger means worse. -/
def crimeVal : CrimeObserved → ℚ
  | .none => 0
  | .minor => 33 / 100
  | .moderate => 66 / 100
  | .severe => 1

/-- Numeric value of a boolean audit field (`cctv_present`, `security_present`). -/
def boolVal (b : Bool) : ℚ := if b then 1 else 0

/-- Modelled from the spec: the Feature Extractor's derived safety label —
ordinal fields normalized to `[0,1]` by dividing by their maximum ordinal
value (4), categorical fields encoded by the tables above, combined with a
tunable weight table in which `crime_observed` is weighted most heavily
(negatively, since the label measures safety) and lighting/visibility
contribute a smaller positive adjustment.  The weights are nonnegative and
sum to one, so the label stays in `[0,1]`. -/
def extractLabel (p : AuditPayload) : ℚ :=
  (1 / 10) * (min p.lighting 4 / 4)
    + (1 / 10) * (min p.visibility 4 / 4)
    + (1 / 20) * boolVal p.cctv
    + (1 / 20) * boolVal p.security
    + (1 / 10) * crowdVal p.crowd
    + (6 / 10) * (1 - crimeVal p.crime)

/-! ## Spatial aggregation (back end): Welford buckets keyed by (cell, band) -/

/-- One GridCell's running statistics. -/
structure WelfordState where
  count : ℕ
  mean : ℚ
  m2 : ℚ
deriving DecidableEq, Repr

/-- The statistics of a cell before any audit is folded in. -/
def welfordInit : WelfordState := ⟨0, 0, 0⟩

/-- Modelled from the spec: one step of Welford's online algorithm,
incorporating one label into a bucket's running count/mean/M2. -/
def welfordStep (st : WelfordState) (x : ℚ) : WelfordState :=
  let n : ℕ := st.count + 1
  let d : ℚ := x - st.mean
  let mean : ℚ := st.mean + d / n
  ⟨n, mean, st.m2 + d * (x - mean)⟩

/-- Population variance of a bucket (`m2 / count`; `0` when empty). -/
def WelfordState.variance (st : WelfordState) : ℚ := st.m2 / st.count

/-- Grid-cell identifier: quantized (lat, lng) indices. -/
abbrev CellId : Type := ℤ × ℤ

/-- Aggregation key: (cell_id, TimeBand). -/
abbrev CellKey : Type := CellId × TimeBand

/-- Modelled from the spec: the cell size of the fixed lat/lng quantization
(0.01 degrees). -/
def cellSize : ℚ := 1 / 100

/-- Modelled from the spec: the cell containing a location. -/
def cellIdOf (lat lng : ℚ) : CellId := (⌊lat / cellSize⌋, ⌊lng / cellSize⌋)

/-- The GridCell table: an association list keyed by (cell_id, band),
in insertion order. -/
abbrev AggTable : Type := List (CellKey × WelfordState)

/-- Lookup of a bucket in the GridCell table (first match). -/
def lookupCell : AggTable → CellKey → Option WelfordState
  | [], _ => none
  | e :: rest, k => if e.1 = k then some e.2 else lookupCell rest k

/-- Whether the table already holds a bucket for a key. -/
def hasCell (cells : AggTable) (k : CellKey) : Bool :=
  cells.any (fun e => decide (e.1 = k))

/-- Modelled from the spec: `ingest` of the Spatial Aggregator — the bucket
for the audit's (cell, band) is updated in place by one Welford step, or
created lazily on the first audit falling into that cell/band. -/
def ingestCell (cells : AggTable) (k : CellKey) (x : ℚ) : AggTable :=
  if hasCell cells k then
    cells.map (fun e => if e.1 = k then (e.1, welfordStep e.2 x) else e)
  else
    cells ++ [(k, welfordStep welfordInit x)]

/-- The bucket for a key, defaulting to the empty statistics. -/
def bucketOf (cells : AggTable) (k : CellKey) : WelfordState :=
  (lookupCell cells k).getD welfordInit

/-- Folding a finite sequence of labels into one (cell, band) bucket. -/
def ingestSeq (cells : AggTable) (k : CellKey) (xs : List ℚ) : AggTable :=
  xs.foldl (fun c x => ingestCell c k x) cells

/-! ## Confidence (back end) -/

/-- Modelled from the spec: confidence derived from `sample_count` and
`variance` — higher count and lower variance give higher confidence,
saturating toward 1.0 as the count grows. -/
def confidence (n : ℕ) (v : ℚ) : ℚ := n / (n + 1 + v)

/-! ## Submission pipeline (help_others.js front end + modelled back end) -/

/-- Outcome of a `submitAudit` click in help_others.js. -/
inductive SubmitOutcome where
  | rejectedValidation (e : ValidateResult)
  | redirectedToAuth
  | sentToBackend
deriving DecidableEq, Repr

/-- Modelled from the spec: the aggregation back end behind
`POST /api/submit_audit` — the audit's label is folded into the bucket of
its (cell, band). -/
def backendIngest (cells : AggTable) (p : AuditPayload) : AggTable :=
  match p.lat, p.lng with
  | some la, some ln =>
      ingestCell cells (cellIdOf la ln, getCurrentTimeBand p.hour) (extractLabel p)
  | _, _ => cells

/-- Embedding of `submitAudit` from help_others.js, composed with the
modelled back end: validation failure shows the error and returns before
any request is made; an unauthenticated non-anonymous submission redirects
to the auth page; only otherwise is the request sent (and the GridCell
table updated). -/
def submitAudit (cells : AggTable) (p : AuditPayload)
    (anonymous signedIn : Bool) : SubmitOutcome × AggTable :=
  match validatePayload p.lat p.lng with
  | .ok =>
      if anonymous = false ∧ signedIn = false then (.redirectedToAuth, cells)
      else (.sentToBackend, backendIngest cells p)
  | e => (.rejectedValidation e, cells)

/-! ## Predictive Scorer (back end) and heatmap point rendering (front end) -/

/-- A trained-model snapshot: `predict(location, band) → (score, confidence)`. -/
abbrev ModelSnapshot : Type := ℚ → ℚ → TimeBand → ℚ × ℚ

/-- Modelled from the spec: `score(location, band)` of the Predictive
Scorer — if the containing GridCell has `sample_count ≥ min_samples`, its
`mean_score` is returned with a confidence derived from count and
variance; otherwise the trained model's `predict` is used; and with no
model available at all the neutral default `(0.5, 0)` is returned rather
than failing. -/
def scoreLocation (cells : AggTable) (model : Option ModelSnapshot)
    (lat lng : ℚ) (band : TimeBand) (minSamples : ℕ) : ℚ × ℚ :=
  let fallback : ℚ × ℚ :=
    match model with
    | some m => m lat lng band
    | none => (1 / 2, 0)
  match lookupCell cells (cellIdOf lat lng, band) with
  | some w => if minSamples ≤ w.count then (w.mean, confidence w.count w.variance) else fallback
  | none => fallback

/-- Embedding of the point-score defaulting in `fetchAndRender`
(/js/heatmap.js): `(p.score !== undefined && p.score !== null) ?
Number(p.score) : 0.5` — `none` models an absent or null score. -/
def renderPointScore (s : Option ℚ) : ℚ :=
  match s with
  | some q => q
  | none => 1 / 2

/-- Embedding of the sample-count defaulting in `fetchAndRender`
(/js/heatmap.js): `p.samples ?? 1`. -/
def renderPointSamples (n : Option ℕ) : ℕ :=
  match n with
  | some m => m
  | none => 1

/-! ## Heatmap Query Service (back end) -/

/-- A viewport bounding box, `west,south,east,north` as sent by the
front end. -/
structure Bbox where
  west : ℚ
  south : ℚ
  east : ℚ
  north : ℚ
deriving DecidableEq, Repr

/-- One scored output point of the heatmap query. -/
structure ScoredPoint where
  lat : ℚ
  lng : ℚ
  score : ℚ
  conf : ℚ
  samples : ℕ
deriving DecidableEq, Repr

/-- Modelled from the spec: the representative location of a grid cell
(its south-west corner under the fixed quantization). -/
def cellLocation (c : CellId) : ℚ × ℚ := (c.1 * cellSize, c.2 * cellSize)

/-- Whether a location lies inside a bounding box. -/
def inBbox (b : Bbox) (lat lng : ℚ) : Bool :=
  decide (b.south ≤ lat) && decide (lat ≤ b.north)
    && decide (b.west ≤ lng) && decide (lng ≤ b.east)

/-- Modelled from the spec: `query(bbox, band, min_samples)` of the Heatmap
Query Service — enumerate the GridCells intersecting the bbox for the
band in table order, drop cells with `sample_count < min_samples`, and
emit one ScoredPoint per remaining cell.  The result is a pure function
of the GridCell table and the arguments, so identical inputs give the
identical point list. -/
def heatmapQuery (cells : AggTable) (b : Bbox) (band : TimeBand)
    (minSamples : ℕ) : List ScoredPoint :=
  (cells.filter (fun e =>
      decide (e.1.2 = band) && decide (minSamples ≤ e.2.count)
        && inBbox b (cellLocation e.1.1).1 (cellLocation e.1.1).2)).map
    (fun e =>
      { lat := (cellLocation e.1.1).1
        lng := (cellLocation e.1.1).2
        score := e.2.mean
        conf := confidence e.2.count e.2.variance
        samples := e.2.count })

/-- An operation against the shared GridCell table: one audit ingestion or
one heatmap query. -/
inductive AggOp where
  | ingest (k : CellKey) (x : ℚ)
  | query (b : Bbox) (band : TimeBand) (minSamples : ℕ)

/-- Whether an operation is a (read-only) heatmap query. -/
def AggOp.isQuery : AggOp → Bool
  | .ingest _ _ => false
  | .query _ _ _ => true

/-- State transition of the GridCell table under one operation: ingestion
updates the addressed bucket, a query reads without mutating. -/
def applyOp (cells : AggTable) : AggOp → AggTable
  | .ingest k x => ingestCell cells k x
  | .query _ _ _ => cells

/-- Running a sequence of operations against the GridCell table. -/
def runOps (cells : AggTable) (ops : List AggOp) : AggTable :=
  ops.foldl applyOp cells

/-! ## Route Evaluator (back end) and safe_route requests (front end) -/

/-- One evaluated route candidate: mean point score, fraction of points
meeting the confidence threshold, and route length in meters. -/
structure RouteCandidate where
  avg_score : ℚ
  coverage : ℚ
  distance_m : ℚ
deriving DecidableEq, Repr

/-- Modelled from the spec: the tie-break epsilon on `avg_score` (0.01). -/
def scoreEpsilon : ℚ := 1 / 100

/-- Modelled from the spec: the minimum acceptable `coverage` (0.3). -/
def coverageFloor : ℚ := 3 / 10

/-- Whether a candidate meets the coverage floor. -/
def meetsCoverage (c : RouteCandidate) : Bool :=
  decide (coverageFloor ≤ c.coverage)

/-- Modelled from the spec: the composite ranking objective of the Route
Evaluator — a candidate below the coverage floor ranks below any candidate
meeting it regardless of raw score; otherwise `avg_score` decides, except
that scores within the epsilon are ties broken by shorter `distance_m`. -/
def betterCandidate (a b : RouteCandidate) : Bool :=
  if meetsCoverage a ≠ meetsCoverage b then meetsCoverage a
  else if |a.avg_score - b.avg_score| ≤ scoreEpsilon then
    decide (a.distance_m < b.distance_m)
  else decide (b.avg_score < a.avg_score)

/-- Modelled from the spec: selection of the best candidate — the first
candidate is kept unless a later one ranks strictly better, so the choice
is a deterministic function of the evaluated candidate list. -/
def selectBest : List RouteCandidate → Option RouteCandidate
  | [] => none
  | c :: cs => some (cs.foldl (fun best x => if betterCandidate x best then x else best) c)

/-- The query fields a front-end safe_route request can carry. -/
inductive SafeRouteField where
  | start
  | end_
  | band
  | step_m
  | start_lat
  | start_lng
  | end_lat
  | end_lng
deriving DecidableEq, Repr

/-- Embedding of the payload keys built by `evaluateRoutes` in
`frontend/js/route.js`: `{ start, end, band, step_m }`. -/
def evaluateRoutesPayloadFields : List SafeRouteField :=
  [.start, .end_, .band, .step_m]

/-- Embedding of the `step_m` value in `frontend/js/route.js`:
`opts.step_m || 50` (`none` models an unspecified option; `0` is falsy). -/
def evaluateRoutesStepM (opt : Option ℚ) : ℚ :=
  match opt with
  | none => 50
  | some s => if s = 0 then 50 else s

/-- Embedding of the query-parameter keys built by `evaluateRoutes` in the
updated `/js/route.js`: `{ start_lat, start_lng, end_lat, end_lng, band,
step_m }`. -/
def evaluateRoutesParamFieldsUpdated : List SafeRouteField :=
  [.start_lat, .start_lng, .end_lat, .end_lng, .band, .step_m]

/-- Embedding of the `step_m` value in the updated `/js/route.js`:
also `opts.step_m || 50`. -/
def evaluateRoutesStepMUpdated (opt : Option ℚ) : ℚ :=
  match opt with
  | none => 50
  | some s => if s = 0 then 50 else s

/-! ## Helper lemmas -/

theorem lookupCell_none_iff (cells : AggTable) (k : CellKey) :
    lookupCell cells k = none ↔ hasCell cells k = false := by
  induction cells with
  | nil => simp [lookupCell, hasCell]
  | cons e rest ih =>
      by_cases he : e.1 = k
      · simp [lookupCell, hasCell, he]
      · simp only [lookupCell, if_neg he, hasCell, List.any_cons,
          decide_eq_false he, Bool.false_or]
        exact ih

theorem lookupCell_append_of_none (l₁ l₂ : AggTable) (k : CellKey)
    (h : lookupCell l₁ k = none) :
    lookupCell (l₁ ++ l₂) k = lookupCell l₂ k := by
  induction l₁ with
  | nil => rfl
  | cons e rest ih =>
      rw [lookupCell] at h
      by_cases he : e.1 = k
      · rw [if_pos he] at h; exact absurd h (by simp)
      · rw [if_neg he] at h
        rw [List.cons_append, lookupCell, if_neg he]
        exact ih h

theorem lookupCell_map_update (cells : AggTable) (k : CellKey) (x : ℚ) :
    lookupCell (cells.map (fun e => if e.1 = k then (e.1, welfordStep e.2 x) else e)) k
      = (lookupCell cells k).map (fun w => welfordStep w x) := by
  induction cells with
  | nil => rfl
  | cons e rest ih =>
      by_cases he : e.1 = k
      · simp [lookupCell, he]
      · simp [lookupCell, he, ih]

theorem bucketOf_ingestCell_self (cells : AggTable) (k : CellKey) (x : ℚ) :
    bucketOf (ingestCell cells k x) k = welfordStep (bucketOf cells k) x := by
  rw [ingestCell]
  by_cases h : hasCell cells k
  · rw [if_pos h]
    have hne : lookupCell cells k ≠ none := by
      rw [Ne, lookupCell_none_iff, h]; simp
    obtain ⟨w, hw⟩ := Option.ne_none_iff_exists'.mp hne
    rw [bucketOf, lookupCell_map_update, hw, bucketOf, hw]
    rfl
  · rw [if_neg h]
    have hnone : lookupCell cells k = none := (lookupCell_none_iff cells k).mpr (by simpa using h)
    rw [bucketOf, lookupCell_append_of_none cells _ k hnone, bucketOf, hnone]
    simp [lookupCell]

theorem bucketOf_ingestSeq (xs : List ℚ) (cells : AggTable) (k : CellKey) :
    bucketOf (ingestSeq cells k xs) k = xs.foldl welfordStep (bucketOf cells k) := by
  induction xs generalizing cells with
  | nil => rfl
  | cons x xs ih =>
      rw [ingestSeq, List.foldl_cons, List.foldl_cons, ← bucketOf_ingestCell_self]
      exact ih (ingestCell cells k x)

theorem welford_foldl_count_mean (xs : List ℚ) (st : WelfordState) :
    (xs.foldl welfordStep st).count = st.count + xs.length
    ∧ (xs.foldl welfordStep st).mean * ((st.count + xs.length : ℕ) : ℚ)
        = st.mean * st.count + xs.sum := by
  induction xs generalizing st with
  | nil => simp
  | cons x xs ih =>
      rw [List.foldl_cons]
      obtain ⟨h1, h2⟩ := ih (welfordStep st x)
      have hcount : (welfordStep st x).count = st.count + 1 := rfl
      have hcast : ((st.count : ℚ) + 1) ≠ 0 := by positivity
      have hmean : (welfordStep st x).mean * (((welfordStep st x).count : ℕ) : ℚ)
          = st.mean * st.count + x := by
        show (st.mean + (x - st.mean) / ((st.count + 1 : ℕ) : ℚ)) * ((st.count + 1 : ℕ) : ℚ)
          = st.mean * st.count + x
        push_cast
        field_simp
        ring
      constructor
      · rw [h1, hcount, List.length_cons]
        omega
      · rw [show (st.count + (x :: xs).length : ℕ) = ((welfordStep st x).count + xs.length : ℕ) by
          rw [hcount, List.length_cons]; omega]
        rw [h2, hmean, List.sum_cons]
        ring

theorem runOps_queries_id : ∀ (ops : List AggOp) (st : AggTable),
    (∀ op ∈ ops, op.isQuery = true) → runOps st ops = st
  | [], _, _ => rfl
  | op :: rest, st, h => by
      cases op with
      | ingest k x => exact absurd (h _ (List.mem_cons_self _ _)) (by simp [AggOp.isQuery])
      | query b band ms =>
          rw [runOps, List.foldl_cons]
          exact runOps_queries_id rest st (fun o ho => h o (List.mem_cons_of_mem _ ho))

theorem foldl_pick_mem : ∀ (cs : List RouteCandidate) (c : RouteCandidate),
    cs.foldl (fun best x => if betterCandidate x best then x else best) c ∈ c :: cs
  | [], c => by simp
  | x :: cs, c => by
      rw [List.foldl_cons]
      have h := foldl_pick_mem cs (if betterCandidate x c then x else c)
      rcases List.mem_cons.mp h with h1 | h1
      · rw [h1]
        by_cases hb : betterCandidate x c
        · simp [hb]
        · simp [hb]
      · exact List.mem_cons_of_mem _ (List.mem_cons_of_mem _ h1)

/-! ## Claim theorems -/

/-- C4: for every hour 0–23 the TimeBand is derived totally and
deterministically, with hours 0–3 mapping to midnight, 4–11 to morning,
12–16 to afternoon, 17–20 to evening and 21–23 to night — exactly one of
the five bands for every hour. -/
theorem timeband_total_partition :
    ∀ h : ℕ, h < 24 →
      (getCurrentTimeBand h = .midnight ↔ h ≤ 3)
      ∧ (getCurrentTimeBand h = .morning ↔ 4 ≤ h ∧ h ≤ 11)
      ∧ (getCurrentTimeBand h = .afternoon ↔ 12 ≤ h ∧ h ≤ 16)
      ∧ (getCurrentTimeBand h = .evening ↔ 17 ≤ h ∧ h ≤ 20)
      ∧ (getCurrentTimeBand h = .night ↔ 21 ≤ h ∧ h ≤ 23) := by
  decide

/-- Witness for C4 at hour 22: the hypothesis `22 < 24` holds and the band
is `night` exactly because 21 ≤ 22 ≤ 23. -/
theorem timeband_total_partition_witness :
    22 < 24 ∧ Sarthi.getCurrentTimeBand 22 = .night :=
  ⟨by decide, ((timeband_total_partition 22 (by decide)).2.2.2.2).mpr (by decide)⟩

/-- C10: an audit payload whose latitude or longitude equals 0 (in WGS84
range) is rejected by `validatePayload` as an unset location, because the
presence check uses JavaScript falsiness on the numeric coordinates; the
audit is never sent and the GridCell table is untouched. -/
theorem zero_coordinate_rejected_as_unset (cells : AggTable) (p : AuditPayload)
    (anonymous signedIn : Bool) (h0 : p.lat = some 0 ∨ p.lng = some 0) :
    validatePayload p.lat p.lng = .errUnsetLocation
    ∧ submitAudit cells p anonymous signedIn
        = (.rejectedValidation .errUnsetLocation, cells) := by
  have hcond : numTruthy p.lat = false ∨ numTruthy p.lng = false := by
    rcases h0 with h | h
    · exact Or.inl (by rw [h]; simp [numTruthy])
    · exact Or.inr (by rw [h]; simp [numTruthy])
  have hval : validatePayload p.lat p.lng = .errUnsetLocation := by
    rw [validatePayload.eq_def, if_pos hcond]
  exact ⟨hval, by simp [submitAudit, hval]⟩

/-- Witness for C10 at latitude 0, longitude 77.59: validation reports an
unset location and the table stays empty. -/
theorem zero_coordinate_rejected_as_unset_witness :
    (some (0 : ℚ) = some 0 ∨ some (7759 / 100 : ℚ) = some 0)
    ∧ validatePayload (some 0) (some (7759 / 100)) = .errUnsetLocation
    ∧ submitAudit []
        ⟨some 0, some (7759 / 100), 2, 2, false, false, .low, .none, 10⟩ true false
        = (.rejectedValidation .errUnsetLocation, []) :=
  ⟨Or.inl rfl,
    zero_coordinate_rejected_as_unset []
      ⟨some 0, some (7759 / 100), 2, 2, false, false, .low, .none, 10⟩ true false
      (Or.inl rfl)⟩

/-- C2: a submitted audit whose latitude is outside [-90, 90] or whose
longitude is outside [-180, 180] is rejected by validation, the request is
never sent to the aggregation back end, and the GridCell table is not
mutated. -/
theorem out_of_range_rejected (cells : AggTable) (p : AuditPayload)
    (anonymous signedIn : Bool) (la ln : ℚ)
    (hla : p.lat = some la) (hln : p.lng = some ln)
    (hrange : la < -90 ∨ 90 < la ∨ ln < -180 ∨ 180 < ln) :
    validatePayload p.lat p.lng ≠ .ok
    ∧ submitAudit cells p anonymous signedIn
        = (.rejectedValidation (validatePayload p.lat p.lng), cells) := by
  have hne : validatePayload p.lat p.lng ≠ .ok := by
    rw [hla, hln, validatePayload.eq_def]
    by_cases hcond : numTruthy (some la) = false ∨ numTruthy (some ln) = false
    · rw [if_pos hcond]; simp
    · rw [if_neg hcond]
      show (if la < -90 ∨ 90 < la ∨ ln < -180 ∨ 180 < ln
          then ValidateResult.errOutOfRange else .ok) ≠ .ok
      rw [if_pos hrange]
      simp
  refine ⟨hne, ?_⟩
  cases hv : validatePayload p.lat p.lng with
  | ok => exact absurd hv hne
  | errUnsetLocation => simp [submitAudit, hv]
  | errInvalidCoords => simp [submitAudit, hv]
  | errOutOfRange => simp [submitAudit, hv]

/-- Witness for C2 at latitude 200 (end-to-end scenario 4): the submission
is rejected and the empty GridCell table stays empty. -/
theorem out_of_range_rejected_witness :
    ((200 : ℚ) < -90 ∨ (90 : ℚ) < 200 ∨ (77 : ℚ) < -180 ∨ (180 : ℚ) < 77)
    ∧ validatePayload (some 200) (some 77) ≠ .ok
    ∧ submitAudit []
        ⟨some 200, some 77, 2, 2, false, false, .low, .none, 10⟩ true true
        = (.rejectedValidation (validatePayload (some 200) (some 77)), []) :=
  ⟨Or.inr (Or.inl (by norm_num)),
    out_of_range_rejected []
      ⟨some 200, some 77, 2, 2, false, false, .low, .none, 10⟩ true true 200 77
      rfl rfl (Or.inr (Or.inl (by norm_num)))⟩

/-- C8: with no GridCell data anywhere and no trained model, the Predictive
Scorer returns the neutral default `(score 0.5, confidence 0)` instead of
failing, and the heatmap renderer treats a point with an absent score as
score 0.5 (and an absent sample count as 1). -/
theorem cold_start_neutral_default (lat lng : ℚ) (band : TimeBand) (minSamples : ℕ) :
    scoreLocation [] none lat lng band minSamples = (1 / 2, 0)
    ∧ renderPointScore none = 1 / 2
    ∧ renderPointSamples none = 1 :=
  ⟨rfl, rfl, rfl⟩

/-- C9 counterexample: the updated route page `/js/route.js` sends its
safe_route request with fields start_lat, start_lng, end_lat, end_lng,
band, step_m — it carries no `start` field, so not every safe_route
request carries exactly the fields start, end, band, step_m. -/
theorem safe_route_fields_counterexample :
    evaluateRoutesParamFieldsUpdated ≠ evaluateRoutesPayloadFields
    ∧ SafeRouteField.start ∉ evaluateRoutesParamFieldsUpdated := by
  decide

/-- C9 amended: requests built by `evaluateRoutes` in
`frontend/js/route.js` carry exactly the fields start, end, band, step_m,
with step_m defaulting to 50 when the caller does not specify it; the
updated `/js/route.js` instead sends start_lat, start_lng, end_lat,
end_lng, band, step_m, with the same default of 50. -/
theorem safe_route_fields_amended :
    evaluateRoutesPayloadFields = [.start, .end_, .band, .step_m]
    ∧ evaluateRoutesStepM none = 50
    ∧ evaluateRoutesParamFieldsUpdated
        = [.start_lat, .start_lng, .end_lat, .end_lng, .band, .step_m]
    ∧ evaluateRoutesStepMUpdated none = 50 := by
  refine ⟨rfl, rfl, rfl, rfl⟩

/-- C3: folding any finite sequence of audit labels into one (cell, band)
bucket of the Spatial Aggregator, the incrementally maintained Welford
mean equals the batch mean over the sequence exactly (rationals carry no
floating-point error), and the bucket's sample_count equals the length of
the sequence. -/
theorem welford_matches_batch (xs : List ℚ) (k : CellKey) :
    (bucketOf (ingestSeq [] k xs) k).count = xs.length
    ∧ (bucketOf (ingestSeq [] k xs) k).mean = xs.sum / xs.length := by
  have hfold : bucketOf (ingestSeq [] k xs) k = xs.foldl welfordStep welfordInit :=
    bucketOf_ingestSeq xs [] k
  obtain ⟨h1, h2⟩ := welford_foldl_count_mean xs welfordInit
  rw [hfold]
  refine ⟨by simpa [welfordInit] using h1, ?_⟩
  rcases Nat.eq_zero_or_pos xs.length with h0 | hpos
  · obtain rfl : xs = [] := List.length_eq_zero.mp h0
    simp [welfordInit]
  · have hne : ((xs.length : ℚ)) ≠ 0 := by
      exact_mod_cast Nat.pos_iff_ne_zero.mp hpos
    rw [eq_div_iff hne]
    simpa [welfordInit] using h2

/-- C5: confidence is monotonically increasing in sample_count (at equal
variance) and monotonically decreasing in variance (at equal count). -/
theorem confidence_monotone (n n₁ n₂ : ℕ) (v v₁ v₂ : ℚ)
    (hv : 0 ≤ v) (hn : n₁ ≤ n₂) (hv₁ : 0 ≤ v₁) (hvv : v₁ ≤ v₂) :
    confidence n₁ v ≤ confidence n₂ v ∧ confidence n v₂ ≤ confidence n v₁ := by
  have hn' : (n₁ : ℚ) ≤ (n₂ : ℚ) := by exact_mod_cast hn
  have hn₁ : (0 : ℚ) ≤ (n₁ : ℚ) := by positivity
  have hn₂ : (0 : ℚ) ≤ (n₂ : ℚ) := by positivity
  have hnn : (0 : ℚ) ≤ (n : ℚ) := by positivity
  have hv₂ : (0 : ℚ) ≤ v₂ := le_trans hv₁ hvv
  constructor
  · rw [confidence, confidence,
      div_le_div_iff₀ (by linarith) (by linarith)]
    nlinarith [hn', hv]
  · rw [confidence, confidence,
      div_le_div_iff₀ (by linarith) (by linarith)]
    nlinarith [hnn, hvv]

/-- Witness for C5: at equal variance 1, two samples beat one; at equal
count 2, variance 0 beats variance 2. -/
theorem confidence_monotone_witness :
    ((0 : ℚ) ≤ 1 ∧ 1 ≤ 3 ∧ (0 : ℚ) ≤ 0 ∧ (0 : ℚ) ≤ 2)
    ∧ confidence 1 1 ≤ confidence 3 1 ∧ confidence 2 2 ≤ confidence 2 0 :=
  ⟨⟨by norm_num, by norm_num, le_refl 0, by norm_num⟩,
    confidence_monotone 2 1 3 1 0 2 (by norm_num) (by norm_num)
      (le_refl 0) (by norm_num)⟩

/-- C6: the Feature Extractor's derived label is monotone — worsening any
single factor while holding the others fixed never increases the safety
label: raising crime severity lowers or preserves it, and lowering
lighting, visibility, crowd density, CCTV presence or security presence
lowers or preserves it. -/
theorem extract_label_monotone (p : AuditPayload) :
    (∀ c₁ c₂ : CrimeObserved, crimeVal c₁ ≤ crimeVal c₂ →
      extractLabel { p with crime := c₂ } ≤ extractLabel { p with crime := c₁ })
    ∧ (∀ l₁ l₂ : ℕ, l₁ ≤ l₂ →
      extractLabel { p with lighting := l₁ } ≤ extractLabel { p with lighting := l₂ })
    ∧ (∀ v₁ v₂ : ℕ, v₁ ≤ v₂ →
      extractLabel { p with visibility := v₁ } ≤ extractLabel { p with visibility := v₂ })
    ∧ (∀ d₁ d₂ : CrowdDensity, crowdVal d₁ ≤ crowdVal d₂ →
      extractLabel { p with crowd := d₁ } ≤ extractLabel { p with crowd := d₂ })
    ∧ extractLabel { p with cctv := false } ≤ extractLabel { p with cctv := true }
    ∧ extractLabel { p with security := false } ≤ extractLabel { p with security := true } := by
  refine ⟨?_, ?_, ?_, ?_, ?_, ?_⟩
  · intro c₁ c₂ hc
    simp only [extractLabel]
    gcongr
  · intro l₁ l₂ hl
    have hl' : (l₁ : ℚ) ≤ (l₂ : ℚ) := by exact_mod_cast hl
    simp only [extractLabel]
    gcongr
  · intro v₁ v₂ hv
    have hv' : (v₁ : ℚ) ≤ (v₂ : ℚ) := by exact_mod_cast hv
    simp only [extractLabel]
    gcongr
  · intro d₁ d₂ hd
    simp only [extractLabel]
    gcongr
  · simp only [extractLabel, boolVal]
    gcongr
    norm_num
  · simp only [extractLabel, boolVal]
    gcongr
    norm_num

/-- Witness for C6: worsening crime_observed from none to severe on a
concrete audit does not increase the label. -/
theorem extract_label_monotone_witness :
    crimeVal .none ≤ crimeVal .severe
    ∧ extractLabel ⟨some 12, some 77, 3, 2, true, false, .medium, .severe, 22⟩
        ≤ extractLabel ⟨some 12, some 77, 3, 2, true, false, .medium, .none, 22⟩ :=
  ⟨by norm_num [crimeVal],
    (extract_label_monotone ⟨some 12, some 77, 3, 2, true, false, .medium, .none, 22⟩).1
      .none .severe (by norm_num [crimeVal])⟩

/-- C1: the Route Evaluator's selection — a candidate below the coverage
floor is never selected over one meeting it, regardless of raw score;
among candidates with equal floor status whose scores differ by more than
the epsilon, the higher-scoring one is selected (primary ranking by
avg_score descending); among candidates with equal floor status whose
scores differ by at most the epsilon, the shorter one is selected; and
the selection is a deterministic function of the candidate list that
always returns one of its elements. -/
theorem route_selection_correct (a b : RouteCandidate) :
    (meetsCoverage a = true → meetsCoverage b = false →
      selectBest [a, b] = some a ∧ selectBest [b, a] = some a)
    ∧ (meetsCoverage a = meetsCoverage b →
        scoreEpsilon < a.avg_score - b.avg_score →
      selectBest [a, b] = some a ∧ selectBest [b, a] = some a)
    ∧ (meetsCoverage a = meetsCoverage b →
        |a.avg_score - b.avg_score| ≤ scoreEpsilon → a.distance_m < b.distance_m →
      selectBest [a, b] = some a ∧ selectBest [b, a] = some a)
    ∧ (∀ (l : List RouteCandidate) (c : RouteCandidate), selectBest l = some c → c ∈ l) := by
  refine ⟨?_, ?_, ?_, ?_⟩
  · intro hA hB
    have hba : betterCandidate b a = false := by
      rw [betterCandidate, if_pos (by rw [hA, hB]; simp), hB]
    have hab : betterCandidate a b = true := by
      rw [betterCandidate, if_pos (by rw [hA, hB]; simp), hA]
    constructor
    · simp [selectBest, hba]
    · simp [selectBest, hab]
  · intro hc hs
    have hε : (0 : ℚ) ≤ scoreEpsilon := by norm_num [scoreEpsilon]
    have hlt : b.avg_score < a.avg_score := by linarith
    have habs : ¬(|a.avg_score - b.avg_score| ≤ scoreEpsilon) := by
      rw [not_le]
      exact lt_of_lt_of_le hs (le_abs_self _)
    have habs' : ¬(|b.avg_score - a.avg_score| ≤ scoreEpsilon) := by
      rw [abs_sub_comm]; exact habs
    have hba : betterCandidate b a = false := by
      rw [betterCandidate, if_neg (fun hne => hne hc.symm), if_neg habs']
      exact decide_eq_false (not_lt_of_gt hlt)
    have hab : betterCandidate a b = true := by
      rw [betterCandidate, if_neg (fun hne => hne hc), if_neg habs]
      exact decide_eq_true hlt
    constructor
    · simp [selectBest, hba]
    · simp [selectBest, hab]
  · intro hc he hd
    have hba : betterCandidate b a = false := by
      rw [betterCandidate, if_neg (fun hne => hne hc.symm),
        if_pos (by rw [abs_sub_comm]; exact he)]
      exact decide_eq_false (not_lt_of_gt hd)
    have hab : betterCandidate a b = true := by
      rw [betterCandidate, if_neg (fun hne => hne hc), if_pos he]
      exact decide_eq_true hd
    constructor
    · simp [selectBest, hba]
    · simp [selectBest, hab]
  · intro l c h
    cases l with
    | nil => exact absurd h (by simp [selectBest])
    | cons x xs =>
        rw [selectBest] at h
        obtain rfl := Option.some_injective _ h.symm
        exact foldl_pick_mem xs x

/-- Witness for C1: a candidate with score 0.6 and coverage 0.9 is
selected over one with score 0.8 and coverage 0.2 (end-to-end scenario 3),
and under primary ranking a candidate with score 0.9 beats one with score
0.5 at equal coverage despite being much longer, in either presentation
order. -/
theorem route_selection_correct_witness :
    meetsCoverage ⟨6 / 10, 9 / 10, 1000⟩ = true
    ∧ meetsCoverage ⟨8 / 10, 2 / 10, 900⟩ = false
    ∧ selectBest [⟨6 / 10, 9 / 10, 1000⟩, ⟨8 / 10, 2 / 10, 900⟩]
        = some ⟨6 / 10, 9 / 10, 1000⟩
    ∧ selectBest [⟨8 / 10, 2 / 10, 900⟩, ⟨6 / 10, 9 / 10, 1000⟩]
        = some ⟨6 / 10, 9 / 10, 1000⟩
    ∧ meetsCoverage ⟨9 / 10, 8 / 10, 2000⟩ = meetsCoverage ⟨5 / 10, 8 / 10, 100⟩
    ∧ scoreEpsilon < (9 / 10 : ℚ) - 5 / 10
    ∧ selectBest [⟨9 / 10, 8 / 10, 2000⟩, ⟨5 / 10, 8 / 10, 100⟩]
        = some ⟨9 / 10, 8 / 10, 2000⟩
    ∧ selectBest [⟨5 / 10, 8 / 10, 100⟩, ⟨9 / 10, 8 / 10, 2000⟩]
        = some ⟨9 / 10, 8 / 10, 2000⟩ := by
  have h := (route_selection_correct ⟨6 / 10, 9 / 10, 1000⟩ ⟨8 / 10, 2 / 10, 900⟩).1
    (by norm_num [meetsCoverage, coverageFloor]) (by norm_num [meetsCoverage, coverageFloor])
  have h2 := (route_selection_correct ⟨9 / 10, 8 / 10, 2000⟩ ⟨5 / 10, 8 / 10, 100⟩).2.1
    (by norm_num [meetsCoverage, coverageFloor]) (by norm_num [scoreEpsilon])
  exact ⟨by norm_num [meetsCoverage, coverageFloor],
    by norm_num [meetsCoverage, coverageFloor], h.1, h.2,
    by norm_num [meetsCoverage, coverageFloor],
    by norm_num [scoreEpsilon], h2.1, h2.2⟩

/-- C7: the Heatmap Query Service is deterministic and idempotent — a
sequence of operations containing no ingestion leaves the GridCell table
unchanged, so two queries with identical bbox, band and min_samples and no
intervening ingestion return the identical point list (same set, same
order). -/
theorem heatmap_query_idempotent (cells : AggTable) (ops : List AggOp)
    (b : Bbox) (band : TimeBand) (ms : ℕ)
    (h : ∀ op ∈ ops, op.isQuery = true) :
    runOps cells ops = cells
    ∧ heatmapQuery (runOps cells ops) b band ms = heatmapQuery cells b band ms := by
  have hrun : runOps cells ops = cells := runOps_queries_id ops cells h
  exact ⟨hrun, by rw [hrun]⟩

/-- Witness for C7: on a one-cell table, re-querying after an intervening
query returns the same result as the first query. -/
theorem heatmap_query_idempotent_witness :
    (∀ op ∈ [AggOp.query ⟨0, 0, 1, 1⟩ .night 1], op.isQuery = true)
    ∧ runOps [(((0, 0), .night), ⟨1, 7 / 10, 0⟩)]
        [AggOp.query ⟨0, 0, 1, 1⟩ .night 1]
        = [(((0, 0), .night), ⟨1, 7 / 10, 0⟩)]
    ∧ heatmapQuery
        (runOps [(((0, 0), .night), ⟨1, 7 / 10, 0⟩)]
          [AggOp.query ⟨0, 0, 1, 1⟩ .night 1])
        ⟨0, 0, 1, 1⟩ .night 1
        = heatmapQuery [(((0, 0), .night), ⟨1, 7 / 10, 0⟩)] ⟨0, 0, 1, 1⟩ .night 1 := by
  have h := heatmap_query_idempotent [(((0, 0), .night), ⟨1, 7 / 10, 0⟩)]
    [AggOp.query ⟨0, 0, 1, 1⟩ .night 1] ⟨0, 0, 1, 1⟩ .night 1
    (by intro op hop; simp at hop; rw [hop]; rfl)
  exact ⟨by intro op hop; simp at hop; rw [hop]; rfl, h.1, h.2⟩

end Sarthi
